import Mathlib

/-!
Verification of the macos-notify-bridge TCP notification server.

The Go sources are shallowly embedded as pure Lean functions:
* the per-connection protocol handler (`handleConnection`, from `handleConnection`
  in the server source) is a function from the bytes received before EOF or the
  read deadline to a trace of writes plus a closed flag;
* the JSON layer is split into an abstract syntactic parser (a parameter,
  standing for the `encoding/json` scanner, which is host-library code) and
  `unmarshalRequest`, a faithful model of how `json.Unmarshal` populates the
  `NotificationRequest` struct (object/null accepted, case-insensitive ASCII key
  matching, later duplicates win, `null` field values skipped, wrongly typed
  values are errors, unknown keys ignored);
* the notification dispatcher (`sendNotification`) takes the external
  `terminal-notifier` invocation as an oracle from the argument vector to an
  exit outcome;
* address resolution (`getBindAddresses`, `Netutil.GetAllBindAddresses`,
  `Netutil.DetectVMBridges`, `Netutil.isVMBridge`) takes the host's interface
  enumeration as an explicit `Except`-valued input, and the bind phase of
  `Start` takes a per-address bind-success oracle.

Go's `len` on strings counts bytes, so lengths are `String.utf8ByteSize`.
Go library string helpers (`strings.TrimSpace`, `strings.ToLower`,
`strings.HasPrefix`) are re-implemented over character lists so that every
definition evaluates inside the kernel; the case folding is ASCII, which is
exact for all inputs the checks are applied to in this codebase.
-/

set_option maxRecDepth 10000

namespace NotifyBridge

/-! ### String helpers (models of the Go standard library calls used) -/

/-- Whitespace recognized by `strings.TrimSpace` (ASCII fragment). -/
def isSpaceChar (c : Char) : Bool :=
  c = ' ' || c = '\t' || c = '\n' || c = '\r' || c = '\x0b' || c = '\x0c'

/-- Model of `strings.TrimSpace`. -/
def trimSpace (s : String) : String :=
  String.mk (((s.data.dropWhile isSpaceChar).reverse.dropWhile isSpaceChar).reverse)

/-- ASCII lower-casing of one character. -/
def asciiLower (c : Char) : Char :=
  if 'A' ≤ c ∧ c ≤ 'Z' then Char.ofNat (c.toNat + 32) else c

/-- Model of `strings.ToLower` (ASCII fragment). -/
def lowerStr (s : String) : String :=
  String.mk (s.data.map asciiLower)

/-- Model of `strings.HasPrefix`. -/
def hasPrefixStr (s p : String) : Bool :=
  p.data.isPrefixOf s.data

/-- Go's `len` on a string counts UTF-8 bytes. -/
def byteLen (s : String) : Nat :=
  s.utf8ByteSize

/-! ### Request model and limits (`NotificationRequest`, length constants) -/

def maxTitleLength : Nat := 256
def maxMessageLength : Nat := 1024
def maxSoundLength : Nat := 64

/-- The decoded notification request; Go zero value is empty strings. -/
structure NotificationRequest where
  title : String
  message : String
  sound : String
deriving DecidableEq

/-- Abstract JSON values, the output of the syntactic layer of `encoding/json`. -/
inductive Json where
  | null
  | bool (b : Bool)
  | num (n : Int)
  | str (s : String)
  | arr (elems : List Json)
  | obj (fields : List (String × Json))

/-- `encoding/json` matches an object key to a struct field tag preferring an
exact match but also accepting an ASCII case-insensitive match; with the three
distinct tags `title`/`message`/`sound` this is equivalent to comparing the
lower-cased key to the tag. -/
def matchesFieldName (k tag : String) : Bool :=
  lowerStr k == tag

/-- One step of `json.Unmarshal` into the struct: assign object member `(k, v)`.
A key matching no field is ignored; a `null` value leaves the field unchanged;
a non-string value for a recognized key is an unmarshalling type error. -/
def assignField (req : NotificationRequest) (k : String) (v : Json) :
    Option NotificationRequest :=
  if matchesFieldName k "title" then
    match v with
    | Json.str s => some ⟨s, req.message, req.sound⟩
    | Json.null => some req
    | _ => none
  else if matchesFieldName k "message" then
    match v with
    | Json.str s => some ⟨req.title, s, req.sound⟩
    | Json.null => some req
    | _ => none
  else if matchesFieldName k "sound" then
    match v with
    | Json.str s => some ⟨req.title, req.message, s⟩
    | Json.null => some req
    | _ => none
  else
    some req

/-- Model of `json.Unmarshal(data, &req)` for `NotificationRequest`: a JSON
object is folded member by member in order (so later duplicates win), JSON
`null` leaves the zero-valued struct, and any other top-level value is an
error. -/
def unmarshalRequest : Json → Option NotificationRequest
  | Json.null => some ⟨"", "", ""⟩
  | Json.obj fields => fields.foldlM (fun r kv => assignField r kv.1 kv.2) ⟨"", "", ""⟩
  | _ => none

/-! ### Notification dispatcher (`sendNotification`) -/

/-- Outcome of invoking the external `terminal-notifier` process: exit code 0,
or a failure (non-zero exit or launch failure) with the Go error text and the
combined output. -/
inductive ExecResult where
  | success
  | failure (errMsg : String) (output : String)

def senderIdent : String := "com.ahacop.macos-notify-bridge"

/-- The argument vector built for `terminal-notifier` (`-sound` appended only
for a non-empty sound). -/
def notifierArgs (title message sound : String) : List String :=
  let args := ["-title", title, "-message", message, "-sender", senderIdent]
  if sound ≠ "" then args ++ ["-sound", sound] else args

/-- Model of `Server.sendNotification`: invoke the external mechanism once with
the built argument vector; wrap a failure in the Go error text (the verbose
path uses `CombinedOutput` and appends the captured output). -/
def sendNotification (verbose : Bool) (exec : List String → ExecResult)
    (title message sound : String) : Except String Unit :=
  match exec (notifierArgs title message sound) with
  | ExecResult.success => Except.ok ()
  | ExecResult.failure e out =>
      if verbose then
        Except.error ("terminal-notifier failed: " ++ e ++ ", output: " ++ out)
      else
        Except.error ("terminal-notifier failed: " ++ e)

/-! ### Connection handler (`handleConnection`) -/

/-- The response line for a successfully decoded request: the validation chain
of `handleConnection` followed by dispatch. -/
def processRequest (verbose : Bool) (exec : List String → ExecResult)
    (req : NotificationRequest) : String :=
  if req.title = "" || req.message = "" then
    "ERROR: Missing title or message\n"
  else if byteLen req.title > maxTitleLength then
    "ERROR: Title too long (max 256 characters)\n"
  else if byteLen req.message > maxMessageLength then
    "ERROR: Message too long (max 1024 characters)\n"
  else if byteLen req.sound > maxSoundLength then
    "ERROR: Sound name too long (max 64 characters)\n"
  else
    match sendNotification verbose exec req.title req.message req.sound with
    | Except.error e => "ERROR: " ++ e ++ "\n"
    | Except.ok _ => "OK\n"

/-- The response line once the line has been parsed by the syntactic JSON
layer: `json.Unmarshal` errors (wrong shape or wrongly typed members) produce
the same `Invalid JSON` reply as syntax errors. -/
def respondToJson (verbose : Bool) (exec : List String → ExecResult)
    (j : Json) : String :=
  match unmarshalRequest j with
  | none => "ERROR: Invalid JSON\n"
  | some req => processRequest verbose exec req

/-- Observable effects of one run of the handler: the response lines written,
and whether the connection was closed on exit (the Go handler closes it in a
`defer`, so on every path). -/
structure HandlerTrace where
  writes : List String
  closed : Bool
deriving DecidableEq

/-- What `bufio.Reader.ReadString` returns when a newline was received: the
bytes up to and including the first newline. -/
def firstLine (received : List Char) : String :=
  String.mk (received.takeWhile (fun c => c ≠ '\n') ++ ['\n'])

/-- Model of `Server.handleConnection`. `received` is the byte sequence the
connection delivered before it ended (EOF) or the 30-second read deadline
expired; `ReadString` succeeds exactly when it contains a newline. `jsonParse`
is the syntactic layer of `encoding/json` (host-library code), `exec` the
external notifier invocation. -/
def handleConnection (jsonParse : String → Option Json)
    (exec : List String → ExecResult) (verbose : Bool)
    (received : List Char) : HandlerTrace :=
  if received.contains '\n' then
    match jsonParse (trimSpace (firstLine received)) with
    | none => ⟨["ERROR: Invalid JSON\n"], true⟩
    | some j => ⟨[respondToJson verbose exec j], true⟩
  else
    ⟨["ERROR: Failed to read request\n"], true⟩

/-! ### Address resolution (`internal/netutil/interfaces.go`) -/

namespace Netutil

/-- `VMBridgePatterns` from the source. -/
def VMBridgePatterns : List String := ["virbr", "vmnet", "vboxnet", "docker0", "br-"]

/-- The facets of a `net.IP` value the repository consults: `To4() != nil`,
`IsLoopback()`, and `String()`. -/
structure IP where
  isV4 : Bool
  loopback : Bool
  repr : String
deriving DecidableEq

/-- One element of `iface.Addrs()`: the `switch` in `DetectVMBridges`
distinguishes `*net.IPNet`, `*net.IPAddr` and anything else. -/
inductive IfaceAddr where
  | ipNet (ip : IP)
  | ipAddr (ip : IP)
  | other
deriving DecidableEq

/-- One entry of `net.Interfaces()`: name, the `FlagUp` bit, and the result of
`Addrs()` (`none` models a per-interface enumeration error). -/
structure Iface where
  name : String
  up : Bool
  addrs : Option (List IfaceAddr)
deriving DecidableEq

/-- `isVMBridge` from the source: lower-case the name, test each pattern as a
prefix. -/
def isVMBridge (name : String) : Bool :=
  VMBridgePatterns.any (fun pattern => hasPrefixStr (lowerStr name) pattern)

/-- The inner address loop of `DetectVMBridges`: keep IPv4, non-loopback
addresses, in order. -/
def collectIfaceAddrs (addrs : List IfaceAddr) : List String :=
  addrs.foldl
    (fun acc a =>
      match a with
      | IfaceAddr.ipNet ip =>
          if !ip.isV4 then acc else if ip.loopback then acc else acc ++ [ip.repr]
      | IfaceAddr.ipAddr ip =>
          if !ip.isV4 then acc else if ip.loopback then acc else acc ++ [ip.repr]
      | IfaceAddr.other => acc)
    []

/-- `DetectVMBridges` from the source. `interfaces` is the result of the host
call `net.Interfaces()`; Go returns the pair `(slice, error)`, modelled as
`List String × Option String`. Down interfaces, non-matching names and
interfaces whose `Addrs()` call fails are skipped. -/
def DetectVMBridges (interfaces : Except String (List Iface)) :
    List String × Option String :=
  match interfaces with
  | Except.error e => ([], some ("failed to list interfaces: " ++ e))
  | Except.ok ifaces =>
      (ifaces.foldl
        (fun acc iface =>
          if !iface.up then acc
          else if !isVMBridge iface.name then acc
          else
            match iface.addrs with
            | none => acc
            | some as => acc ++ collectIfaceAddrs as)
        [], none)

/-- `GetAllBindAddresses` from the source: always start from `localhost`; with
auto-detection on, append the detected bridge addresses, propagating a
detection error alongside the `localhost`-only slice. -/
def GetAllBindAddresses (includeVMBridges : Bool)
    (interfaces : Except String (List Iface)) : List String × Option String :=
  let addresses := ["localhost"]
  if includeVMBridges then
    match DetectVMBridges interfaces with
    | (_, some e) => (addresses, some ("failed to detect VM bridges: " ++ e))
    | (bridgeAddrs, none) => (addresses ++ bridgeAddrs, none)
  else
    (addresses, none)

end Netutil

/-! ### Server startup (`getBindAddresses`, `Start`) -/

/-- `Server.getBindAddresses`: a non-empty explicit list wins outright,
otherwise defer to `netutil.GetAllBindAddresses`. -/
def getBindAddresses (bindAddresses : List String) (autoDetectBridges : Bool)
    (interfaces : Except String (List Netutil.Iface)) : List String × Option String :=
  if bindAddresses.length > 0 then (bindAddresses, none)
  else Netutil.GetAllBindAddresses autoDetectBridges interfaces

/-- The binding phase of `Server.Start` (lines after address resolution):
empty resolved set fails fast; each address is tried with `net.Listen`
(`canBind` gives the outcome), failures are skipped; if no listener was
opened at all, `Start` fails. On success the bound addresses are returned. -/
def startWithAddresses (addresses : List String) (canBind : String → Bool) :
    Except String (List String) :=
  if addresses.length = 0 then Except.error "no bind addresses available"
  else
    let listeners := addresses.foldl (fun ls a => if canBind a then ls ++ [a] else ls) []
    if listeners.length = 0 then Except.error "failed to create any listeners"
    else Except.ok listeners

/-- `Server.Start` up to the point where it blocks waiting for a shutdown
signal: resolve addresses, then bind. -/
def Start (bindAddresses : List String) (autoDetectBridges : Bool)
    (interfaces : Except String (List Netutil.Iface)) (canBind : String → Bool) :
    Except String (List String) :=
  match getBindAddresses bindAddresses autoDetectBridges interfaces with
  | (_, some e) => Except.error ("failed to get bind addresses: " ++ e)
  | (addresses, none) => startWithAddresses addresses canBind

/-! ### Spec-side definitions (stated from the specification's words, for
refinement comparisons against the source-derived definitions above) -/

/-- Spec-side: the validation chain of §4.3 step 5, in the spec's stated
order, returning the first failing check's response (or `none` when the
request is valid). -/
def firstValidationFailure (req : NotificationRequest) : Option String :=
  if req.title = "" ∨ req.message = "" then
    some "ERROR: Missing title or message\n"
  else if byteLen req.title > 256 then
    some "ERROR: Title too long (max 256 characters)\n"
  else if byteLen req.message > 1024 then
    some "ERROR: Message too long (max 1024 characters)\n"
  else if byteLen req.sound > 64 then
    some "ERROR: Sound name too long (max 64 characters)\n"
  else
    none

/-- Spec-side: case-insensitive prefix match of an interface name against the
fixed pattern set of §4.1. -/
def specMatchesPattern (name : String) : Bool :=
  Netutil.VMBridgePatterns.any (fun p => hasPrefixStr (lowerStr name) (lowerStr p))

/-- Spec-side: the IPv4, non-loopback address an interface address record
contributes, if any. -/
def specAddrIPv4 : Netutil.IfaceAddr → Option String
  | Netutil.IfaceAddr.ipNet ip =>
      if ip.isV4 && !ip.loopback then some ip.repr else none
  | Netutil.IfaceAddr.ipAddr ip =>
      if ip.isV4 && !ip.loopback then some ip.repr else none
  | Netutil.IfaceAddr.other => none

/-- Spec-side: the addresses one interface contributes per §4.1 — an "up"
interface with a matching name contributes its IPv4, non-loopback addresses in
order; anything else contributes nothing. -/
def specIfaceAddresses (iface : Netutil.Iface) : List String :=
  if iface.up && specMatchesPattern iface.name then
    (iface.addrs.getD []).filterMap specAddrIPv4
  else []

/-- Spec-side: auto-detect resolution per §4.1 — `localhost` first, then the
discovered addresses in interface-enumeration order, duplicates kept. -/
def specResolveAuto (ifaces : List Netutil.Iface) : List String :=
  "localhost" :: ifaces.flatMap specIfaceAddresses

/-- The keys the decoder recognizes (case-insensitively) as struct fields;
every other key of a JSON object is unrecognized and ignored. -/
def recognizedKey (k : String) : Bool :=
  matchesFieldName k "title" || matchesFieldName k "message" || matchesFieldName k "sound"

/-! ### Concrete instances used to exercise the theorems -/

/-- An external mechanism that always exits 0. -/
def execAlwaysOk : List String → ExecResult := fun _ => ExecResult.success

/-- An external mechanism that always fails with exit status 1 and no output. -/
def execFailsOnce : List String → ExecResult :=
  fun _ => ExecResult.failure "exit status 1" ""

/-- A concrete wire line: a syntactically valid request encoding. -/
def demoWireText : String :=
  "\x7b\"title\":\"Test\",\"message\":\"Hello\"\x7d"

/-- The JSON value `demoWireText` denotes. -/
def demoJson : Json :=
  Json.obj [("title", Json.str "Test"), ("message", Json.str "Hello")]

/-- A syntactic JSON layer that parses exactly `demoWireText`. -/
def demoParse : String → Option Json :=
  fun s => if s = demoWireText then some demoJson else none

/-- A syntactic JSON layer on which every line is malformed. -/
def rejectAllParse : String → Option Json := fun _ => none

/-- A request whose title, message and sound are all oversized. -/
def longTitleReq : NotificationRequest :=
  ⟨String.mk (List.replicate 257 'a'), String.mk (List.replicate 1025 'b'),
    String.mk (List.replicate 65 'c')⟩

/-- A host with one matching bridge interface and one ordinary interface. -/
def demoIfaces : List Netutil.Iface :=
  [⟨"docker0", true, some [Netutil.IfaceAddr.ipNet ⟨true, false, "172.17.0.1"⟩]⟩,
   ⟨"eth0", true, some [Netutil.IfaceAddr.ipNet ⟨true, false, "10.0.0.5"⟩]⟩]

/-! ## Helper lemmas -/

theorem foldlM_cons_option {α β : Type} (f : β → α → Option β) (b : β) (a : α) (l : List α) :
    List.foldlM f b (a :: l) = (f b a).bind (fun b2 => List.foldlM f b2 l) := rfl

theorem filter_acc_foldl (p : String → Bool) (l : List String) (acc : List String) :
    l.foldl (fun ls a => if p a then ls ++ [a] else ls) acc = acc ++ l.filter p := by
  induction l generalizing acc with
  | nil => simp
  | cons a rest ih =>
      rw [List.foldl_cons, ih]
      by_cases h : p a = true
      · simp [h, List.filter_cons]
      · simp only [Bool.not_eq_true] at h
        simp [h, List.filter_cons]

theorem specMatches_eq_isVMBridge (name : String) :
    specMatchesPattern name = Netutil.isVMBridge name := by
  simp only [specMatchesPattern, Netutil.isVMBridge, Netutil.VMBridgePatterns]
  have h1 : lowerStr "virbr" = "virbr" := by decide
  have h2 : lowerStr "vmnet" = "vmnet" := by decide
  have h3 : lowerStr "vboxnet" = "vboxnet" := by decide
  have h4 : lowerStr "docker0" = "docker0" := by decide
  have h5 : lowerStr "br-" = "br-" := by decide
  simp [List.any_cons, h1, h2, h3, h4, h5]

theorem collect_aux (as : List Netutil.IfaceAddr) (acc : List String) :
    as.foldl
      (fun acc a =>
        match a with
        | Netutil.IfaceAddr.ipNet ip =>
            if !ip.isV4 then acc else if ip.loopback then acc else acc ++ [ip.repr]
        | Netutil.IfaceAddr.ipAddr ip =>
            if !ip.isV4 then acc else if ip.loopback then acc else acc ++ [ip.repr]
        | Netutil.IfaceAddr.other => acc)
      acc = acc ++ as.filterMap specAddrIPv4 := by
  induction as generalizing acc with
  | nil => simp
  | cons a rest ih =>
      rw [List.foldl_cons, ih]
      cases a with
      | ipNet ip =>
          cases hv : ip.isV4 <;> cases hl : ip.loopback <;>
            simp [specAddrIPv4, hv, hl, List.filterMap_cons]
      | ipAddr ip =>
          cases hv : ip.isV4 <;> cases hl : ip.loopback <;>
            simp [specAddrIPv4, hv, hl, List.filterMap_cons]
      | other => simp [specAddrIPv4, List.filterMap_cons]

theorem collectIfaceAddrs_eq (as : List Netutil.IfaceAddr) :
    Netutil.collectIfaceAddrs as = as.filterMap specAddrIPv4 := by
  have h := collect_aux as []
  rw [List.nil_append] at h
  unfold Netutil.collectIfaceAddrs
  exact h

theorem detect_aux (ifaces : List Netutil.Iface) (acc : List String) :
    ifaces.foldl
      (fun acc iface =>
        if !iface.up then acc
        else if !Netutil.isVMBridge iface.name then acc
        else
          match iface.addrs with
          | none => acc
          | some as => acc ++ Netutil.collectIfaceAddrs as)
      acc = acc ++ ifaces.flatMap specIfaceAddresses := by
  induction ifaces generalizing acc with
  | nil => simp
  | cons iface rest ih =>
      rw [List.foldl_cons, ih]
      have hcontrib :
          (if !iface.up then acc
           else if !Netutil.isVMBridge iface.name then acc
           else
             match iface.addrs with
             | none => acc
             | some as => acc ++ Netutil.collectIfaceAddrs as)
            = acc ++ specIfaceAddresses iface := by
        cases hu : iface.up with
        | false => simp [specIfaceAddresses, hu]
        | true =>
            cases hb : Netutil.isVMBridge iface.name with
            | false =>
                simp [specIfaceAddresses, hu, specMatches_eq_isVMBridge, hb]
            | true =>
                cases ha : iface.addrs with
                | none =>
                    simp [specIfaceAddresses, hu, specMatches_eq_isVMBridge, hb, ha]
                | some as =>
                    simp [specIfaceAddresses, hu, specMatches_eq_isVMBridge, hb, ha,
                      collectIfaceAddrs_eq]
      rw [hcontrib, List.flatMap_cons, List.append_assoc]

theorem DetectVMBridges_ok (ifaces : List Netutil.Iface) :
    Netutil.DetectVMBridges (Except.ok ifaces)
      = (ifaces.flatMap specIfaceAddresses, none) := by
  have h := detect_aux ifaces []
  rw [List.nil_append] at h
  simp only [Netutil.DetectVMBridges]
  rw [h]

theorem assignField_unrecognized (r : NotificationRequest) (k : String) (v : Json)
    (h : recognizedKey k = false) : assignField r k v = some r := by
  unfold recognizedKey at h
  rw [Bool.or_eq_false_iff, Bool.or_eq_false_iff] at h
  obtain ⟨⟨h1, h2⟩, h3⟩ := h
  unfold assignField
  rw [if_neg (by simp [h1]), if_neg (by simp [h2]), if_neg (by simp [h3])]

theorem unmarshal_filter_aux (fields : List (String × Json)) (r : NotificationRequest) :
    List.foldlM (fun r kv => assignField r kv.1 kv.2) r fields
      = List.foldlM (fun r kv => assignField r kv.1 kv.2) r
          (fields.filter (fun kv => recognizedKey kv.1)) := by
  induction fields generalizing r with
  | nil => rfl
  | cons kv rest ih =>
      by_cases h : recognizedKey kv.1 = true
      · rw [List.filter_cons_of_pos (by simpa using h)]
        rw [foldlM_cons_option, foldlM_cons_option]
        cases hres : assignField r kv.1 kv.2 with
        | none => rfl
        | some r2 => simp [Option.bind, ih]
      · simp only [Bool.not_eq_true] at h
        rw [List.filter_cons_of_neg (by simp [h])]
        rw [foldlM_cons_option]
        rw [assignField_unrecognized r kv.1 kv.2 h]
        simpa [Option.bind] using ih r

theorem processRequest_shape (verbose : Bool) (exec : List String → ExecResult)
    (req : NotificationRequest) :
    processRequest verbose exec req = "OK\n"
    ∨ ∃ d, processRequest verbose exec req = "ERROR: " ++ d ++ "\n" := by
  unfold processRequest
  split
  · exact Or.inr ⟨"Missing title or message", rfl⟩
  · split
    · exact Or.inr ⟨"Title too long (max 256 characters)", rfl⟩
    · split
      · exact Or.inr ⟨"Message too long (max 1024 characters)", rfl⟩
      · split
        · exact Or.inr ⟨"Sound name too long (max 64 characters)", rfl⟩
        · split
          · next e heq => exact Or.inr ⟨e, rfl⟩
          · exact Or.inl rfl

/-! ## Claim theorems -/

/-- C1: for every connection whose line parses as a request, the handler
evaluates the validation checks in the spec's exact order and the first
failing check determines the single response (empty title/message, then title
over 256, then message over 1024, then sound over 64); in particular the title
check takes precedence even when message and sound are also oversized.
`firstValidationFailure` is the spec-side statement of that order. -/
theorem first_failing_check_determines_response
    (verbose : Bool) (exec : List String → ExecResult)
    (req : NotificationRequest) (e : String)
    (h : firstValidationFailure req = some e) :
    processRequest verbose exec req = e := by
  unfold firstValidationFailure at h
  unfold processRequest
  by_cases h1 : req.title = "" ∨ req.message = ""
  · rw [if_pos h1] at h
    injection h with h
    subst h
    have hb : (req.title = "" || req.message = "") = true := by
      cases h1 with
      | inl h1 => simp [h1]
      | inr h1 => simp [h1]
    rw [if_pos hb]
  · rw [if_neg h1] at h
    push_neg at h1
    have hb : ¬ (req.title = "" || req.message = "") = true := by
      simp [h1.1, h1.2]
    rw [if_neg hb]
    by_cases h2 : byteLen req.title > 256
    · rw [if_pos h2] at h
      injection h with h
      subst h
      rw [if_pos (show byteLen req.title > maxTitleLength from h2)]
    · rw [if_neg h2] at h
      rw [if_neg (show ¬ byteLen req.title > maxTitleLength from h2)]
      by_cases h3 : byteLen req.message > 1024
      · rw [if_pos h3] at h
        injection h with h
        subst h
        rw [if_pos (show byteLen req.message > maxMessageLength from h3)]
      · rw [if_neg h3] at h
        rw [if_neg (show ¬ byteLen req.message > maxMessageLength from h3)]
        by_cases h4 : byteLen req.sound > 64
        · rw [if_pos h4] at h
          injection h with h
          subst h
          rw [if_pos (show byteLen req.sound > maxSoundLength from h4)]
        · rw [if_neg h4] at h
          cases h

/-- C1 witness: a request with title, message and sound all oversized receives
the title response — the title check takes precedence. -/
theorem first_failing_check_witness :
    processRequest false execAlwaysOk longTitleReq
        = "ERROR: Title too long (max 256 characters)\n"
      ∧ byteLen longTitleReq.message > 1024 ∧ byteLen longTitleReq.sound > 64 :=
  ⟨first_failing_check_determines_response false execAlwaysOk longTitleReq
      "ERROR: Title too long (max 256 characters)\n" (by decide),
    by decide, by decide⟩

/-- C2: for every valid request (non-empty title of at most 256 bytes,
non-empty message of at most 1024 bytes, sound absent or at most 64 bytes)
read as one newline-terminated line, if the external mechanism invocation
exits 0 the handler responds exactly `OK` followed by a newline. -/
theorem valid_request_ok
    (jsonParse : String → Option Json) (exec : List String → ExecResult)
    (verbose : Bool) (received : List Char) (j : Json) (req : NotificationRequest)
    (hnl : received.contains '\n' = true)
    (hparse : jsonParse (trimSpace (firstLine received)) = some j)
    (hreq : unmarshalRequest j = some req)
    (ht : req.title ≠ "") (hm : req.message ≠ "")
    (hlt : byteLen req.title ≤ maxTitleLength)
    (hlm : byteLen req.message ≤ maxMessageLength)
    (hls : byteLen req.sound ≤ maxSoundLength)
    (hexec : exec (notifierArgs req.title req.message req.sound) = ExecResult.success) :
    handleConnection jsonParse exec verbose received = ⟨["OK\n"], true⟩ := by
  unfold handleConnection
  rw [if_pos hnl, hparse]
  simp only [respondToJson, hreq]
  have hcond : ¬ (req.title = "" || req.message = "") = true := by simp [ht, hm]
  have h2 : ¬ byteLen req.title > maxTitleLength := by omega
  have h3 : ¬ byteLen req.message > maxMessageLength := by omega
  have h4 : ¬ byteLen req.sound > maxSoundLength := by omega
  simp [processRequest, hcond, h2, h3, h4, sendNotification, hexec]

/-- C2 witness: a concrete valid request line with a succeeding external
mechanism yields `OK`. -/
theorem valid_request_ok_witness :
    handleConnection demoParse execAlwaysOk false (demoWireText.data ++ ['\n'])
      = ⟨["OK\n"], true⟩ :=
  valid_request_ok demoParse execAlwaysOk false (demoWireText.data ++ ['\n'])
    demoJson ⟨"Test", "Hello", ""⟩ (by decide) rfl rfl (by decide) (by decide)
    (by decide) (by decide) (by decide) rfl

/-- C3: every input line that is not parseable as the expected structured JSON
object — whether the syntactic layer rejects it or `json.Unmarshal` rejects
its shape — makes the handler respond exactly `ERROR: Invalid JSON` (followed
by the connection close recorded in the trace); the handler is a total
function, so such protocol errors are never fatal to the server. -/
theorem invalid_json_response
    (jsonParse : String → Option Json) (exec : List String → ExecResult)
    (verbose : Bool) (received : List Char)
    (hnl : received.contains '\n' = true) :
    (jsonParse (trimSpace (firstLine received)) = none →
      handleConnection jsonParse exec verbose received
        = ⟨["ERROR: Invalid JSON\n"], true⟩)
    ∧ (∀ j, jsonParse (trimSpace (firstLine received)) = some j →
        unmarshalRequest j = none →
        handleConnection jsonParse exec verbose received
          = ⟨["ERROR: Invalid JSON\n"], true⟩) := by
  constructor
  · intro hp
    unfold handleConnection
    rw [if_pos hnl, hp]
  · intro j hp hu
    unfold handleConnection
    rw [if_pos hnl, hp]
    simp [respondToJson, hu]

/-- C3 witness: a line the JSON layer rejects produces `ERROR: Invalid JSON`. -/
theorem invalid_json_witness :
    handleConnection rejectAllParse execAlwaysOk false ("notjson\n".data)
      = ⟨["ERROR: Invalid JSON\n"], true⟩ :=
  (invalid_json_response rejectAllParse execAlwaysOk false ("notjson\n".data)
    (by decide)).1 rfl

/-- C4: for every request line that parses as a JSON object, keys the decoder
does not recognize (no case-insensitive match with `title`, `message` or
`sound`) do not affect the handler's behavior: the response equals the
response for the identical object with the unrecognized members removed. -/
theorem unknown_keys_ignored (verbose : Bool) (exec : List String → ExecResult)
    (fields : List (String × Json)) :
    respondToJson verbose exec (Json.obj fields)
      = respondToJson verbose exec
          (Json.obj (fields.filter (fun kv => recognizedKey kv.1))) := by
  simp only [respondToJson, unmarshalRequest]
  rw [unmarshal_filter_aux]

/-- C5: a non-empty explicit address list is returned verbatim without
consulting auto-detection (the result does not depend on the auto-detect flag
or the host's interfaces); an empty list with auto-detect off resolves to
exactly `["localhost"]`. -/
theorem explicit_addresses_verbatim (bindAddresses : List String) (autoDetect : Bool)
    (interfaces : Except String (List Netutil.Iface)) :
    (bindAddresses ≠ [] →
      getBindAddresses bindAddresses autoDetect interfaces = (bindAddresses, none))
    ∧ getBindAddresses [] false interfaces = (["localhost"], none) := by
  constructor
  · intro h
    have hl : bindAddresses.length > 0 := List.length_pos.mpr h
    simp [getBindAddresses, hl]
  · simp [getBindAddresses, Netutil.GetAllBindAddresses]

/-- C5 witness: explicit `["127.0.0.1"]` wins even with auto-detect on and a
failing host enumeration; no explicit addresses and no auto-detect give
`["localhost"]`. -/
theorem explicit_addresses_witness :
    getBindAddresses ["127.0.0.1"] true (Except.error "enumeration failed")
        = (["127.0.0.1"], none)
      ∧ getBindAddresses [] false (Except.error "enumeration failed")
        = (["localhost"], none) :=
  ⟨(explicit_addresses_verbatim ["127.0.0.1"] true
      (Except.error "enumeration failed")).1 (by decide),
    (explicit_addresses_verbatim [] false (Except.error "enumeration failed")).2⟩

/-- C6: with auto-detect on and no explicit addresses, resolution returns
`localhost` first, then, per the spec-side `specResolveAuto`, the IPv4
non-loopback addresses of every "up" interface whose name matches the fixed
pattern set under case-insensitive prefix matching, in enumeration order with
duplicates kept; and it fails exactly when interface enumeration fails. -/
theorem auto_detect_follows_spec (interfaces : Except String (List Netutil.Iface)) :
    (∀ ifaces, interfaces = Except.ok ifaces →
      Netutil.GetAllBindAddresses true interfaces = (specResolveAuto ifaces, none))
    ∧ ((Netutil.GetAllBindAddresses true interfaces).2 ≠ none ↔
        ∃ e, interfaces = Except.error e) := by
  constructor
  · intro ifaces h
    subst h
    simp [Netutil.GetAllBindAddresses, DetectVMBridges_ok, specResolveAuto]
  · cases interfaces with
    | ok ifaces => simp [Netutil.GetAllBindAddresses, DetectVMBridges_ok]
    | error e => simp [Netutil.GetAllBindAddresses, Netutil.DetectVMBridges]

/-- C6 witness: a docker bridge is collected after `localhost`; a
non-matching interface contributes nothing. -/
theorem auto_detect_witness :
    Netutil.GetAllBindAddresses true (Except.ok demoIfaces)
        = (specResolveAuto demoIfaces, none)
      ∧ specResolveAuto demoIfaces = ["localhost", "172.17.0.1"] :=
  ⟨(auto_detect_follows_spec (Except.ok demoIfaces)).1 demoIfaces rfl, by decide⟩

/-- C7: the bind phase of `Start` fails fast on an empty resolved address set
(for every bind oracle, so no bind is consulted); otherwise per-address bind
failures are skipped — the listeners are exactly the addresses that bind —
and a startup error occurs if and only if every address failed to bind. -/
theorem start_bind_policy (addresses : List String) (canBind : String → Bool) :
    startWithAddresses [] canBind = Except.error "no bind addresses available"
    ∧ (addresses ≠ [] →
        ((startWithAddresses addresses canBind
            = Except.error "failed to create any listeners")
          ↔ ∀ a ∈ addresses, canBind a = false)
        ∧ ((∃ a ∈ addresses, canBind a = true) →
            startWithAddresses addresses canBind
              = Except.ok (addresses.filter canBind))) := by
  have hfold := filter_acc_foldl canBind addresses []
  rw [List.nil_append] at hfold
  constructor
  · simp [startWithAddresses]
  · intro h
    have hlen : ¬ addresses.length = 0 := by simpa [List.length_eq_zero] using h
    constructor
    · constructor
      · intro herr
        by_cases hf : addresses.filter canBind = []
        · intro a ha
          have := List.filter_eq_nil_iff.mp hf a ha
          simpa using this
        · exfalso
          have hok : startWithAddresses addresses canBind
              = Except.ok (addresses.filter canBind) := by
            simp [startWithAddresses, hlen, hfold, List.length_eq_zero, hf]
          rw [hok] at herr
          cases herr
      · intro hall
        have hf : addresses.filter canBind = [] :=
          List.filter_eq_nil_iff.mpr (fun a ha => by simp [hall a ha])
        simp [startWithAddresses, hlen, hfold, hf]
    · intro hex
      obtain ⟨a, ha, hb⟩ := hex
      have hf : addresses.filter canBind ≠ [] := by
        intro hf
        have := List.filter_eq_nil_iff.mp hf a ha
        simp [hb] at this
      simp [startWithAddresses, hlen, hfold, List.length_eq_zero, hf]

/-- C7 witness: one address failing to bind is skipped while the other is
kept; when every address fails to bind, `Start`'s bind phase errors. -/
theorem start_bind_witness :
    startWithAddresses ["198.51.100.7", "localhost"] (fun a => a == "localhost")
        = Except.ok ["localhost"]
      ∧ startWithAddresses ["198.51.100.7", "localhost"] (fun _ => false)
        = Except.error "failed to create any listeners" := by
  constructor
  · have h := ((start_bind_policy ["198.51.100.7", "localhost"]
      (fun a => a == "localhost")).2 (by decide)).2
      ⟨"localhost", by decide, by decide⟩
    rw [h]
    rfl
  · exact ((start_bind_policy ["198.51.100.7", "localhost"] (fun _ => false)).2
      (by decide)).1.mpr (by decide)

/-- C8: the dispatcher invokes the external mechanism with
`-title <title> -message <message> -sender <fixed-id>`, appending
`-sound <sound>` exactly when the sound is non-empty; exit code 0 means
success, and a failure yields a dispatch error whose detail the handler
surfaces verbatim to the client as `ERROR: <detail>` (the single invocation in
`sendNotification` is never retried). -/
theorem dispatcher_contract (verbose : Bool) (exec : List String → ExecResult)
    (title message sound : String) :
    notifierArgs title message sound
      = ["-title", title, "-message", message, "-sender",
          "com.ahacop.macos-notify-bridge"]
        ++ (if sound = "" then [] else ["-sound", sound])
    ∧ (exec (notifierArgs title message sound) = ExecResult.success →
        sendNotification verbose exec title message sound = Except.ok ())
    ∧ (∀ emsg out,
        exec (notifierArgs title message sound) = ExecResult.failure emsg out →
        ∃ detail,
          sendNotification verbose exec title message sound = Except.error detail
          ∧ ∀ req : NotificationRequest,
              req.title = title → req.message = message → req.sound = sound →
              req.title ≠ "" → req.message ≠ "" →
              byteLen req.title ≤ maxTitleLength →
              byteLen req.message ≤ maxMessageLength →
              byteLen req.sound ≤ maxSoundLength →
              processRequest verbose exec req = "ERROR: " ++ detail ++ "\n") := by
  refine ⟨?_, ?_, ?_⟩
  · unfold notifierArgs senderIdent
    by_cases h : sound = ""
    · simp [h]
    · simp [h]
  · intro h
    simp [sendNotification, h]
  · intro emsg out h
    refine ⟨if verbose then "terminal-notifier failed: " ++ emsg ++ ", output: " ++ out
            else "terminal-notifier failed: " ++ emsg, ?_, ?_⟩
    · cases verbose <;> simp [sendNotification, h]
    · intro req h1 h2 h3 ht hm hlt hlm hls
      subst h1
      subst h2
      subst h3
      have hb2 : ¬ maxTitleLength < byteLen req.title := by omega
      have hb3 : ¬ maxMessageLength < byteLen req.message := by omega
      have hb4 : ¬ maxSoundLength < byteLen req.sound := by omega
      cases verbose <;>
        simp [processRequest, ht, hm, hb2, hb3, hb4, sendNotification, h]

/-- C8 witness: a failing external mechanism makes the dispatcher fail, and
the handler surfaces the dispatch error verbatim as `ERROR: <detail>`. -/
theorem dispatcher_witness :
    ∃ detail,
      sendNotification false execFailsOnce "Test" "Hello" "" = Except.error detail
      ∧ processRequest false execFailsOnce ⟨"Test", "Hello", ""⟩
          = "ERROR: " ++ detail ++ "\n" := by
  obtain ⟨-, -, h3⟩ := dispatcher_contract false execFailsOnce "Test" "Hello" ""
  obtain ⟨detail, hd, hresp⟩ := h3 "exit status 1" "" rfl
  exact ⟨detail, hd, hresp ⟨"Test", "Hello", ""⟩ rfl rfl rfl (by decide) (by decide)
    (by decide) (by decide) (by decide)⟩

/-- C9: on every exit path of the handler — for every parse layer, external
mechanism, verbosity and input — exactly one newline-terminated response line
is written, either `OK` or one beginning `ERROR: `, and the connection is
closed on handler exit. -/
theorem one_response_then_close (jsonParse : String → Option Json)
    (exec : List String → ExecResult) (verbose : Bool) (received : List Char) :
    (handleConnection jsonParse exec verbose received).closed = true
    ∧ ((handleConnection jsonParse exec verbose received).writes = ["OK\n"]
       ∨ ∃ d, (handleConnection jsonParse exec verbose received).writes
           = ["ERROR: " ++ d ++ "\n"]) := by
  unfold handleConnection
  by_cases hnl : received.contains '\n' = true
  · rw [if_pos hnl]
    cases hp : jsonParse (trimSpace (firstLine received)) with
    | none => exact ⟨rfl, Or.inr ⟨"Invalid JSON", rfl⟩⟩
    | some j =>
        refine ⟨rfl, ?_⟩
        simp only [respondToJson]
        cases hu : unmarshalRequest j with
        | none => exact Or.inr ⟨"Invalid JSON", rfl⟩
        | some req =>
            rcases processRequest_shape verbose exec req with h | ⟨d, h⟩
            · exact Or.inl (show [processRequest verbose exec req] = ["OK\n"] from
                by rw [h])
            · exact Or.inr ⟨d, show [processRequest verbose exec req]
                = ["ERROR: " ++ d ++ "\n"] from by rw [h]⟩
  · rw [if_neg hnl]
    exact ⟨rfl, Or.inr ⟨"Failed to read request", rfl⟩⟩

/-- C10: when the received bytes contain no newline before the connection ends
or the read deadline expires, the handler responds `ERROR: Failed to read
request` — for every parse layer, hence even when the bytes form a complete,
valid request encoding; a request is only processed from a newline-terminated
line. -/
theorem unterminated_input_read_error (jsonParse : String → Option Json)
    (exec : List String → ExecResult) (verbose : Bool) (received : List Char)
    (h : received.contains '\n' = false) :
    handleConnection jsonParse exec verbose received
      = ⟨["ERROR: Failed to read request\n"], true⟩ := by
  unfold handleConnection
  rw [if_neg (fun hc => Bool.noConfusion (h ▸ hc))]

/-- C10 witness: the very bytes that (with a trailing newline) would yield
`OK` produce the read-failure response when the newline never arrives. -/
theorem unterminated_input_witness :
    handleConnection demoParse execAlwaysOk false demoWireText.data
        = ⟨["ERROR: Failed to read request\n"], true⟩
      ∧ handleConnection demoParse execAlwaysOk false (demoWireText.data ++ ['\n'])
        = ⟨["OK\n"], true⟩ :=
  ⟨unterminated_input_read_error demoParse execAlwaysOk false demoWireText.data
      (by decide),
    by decide⟩

end NotifyBridge
